import Mathlib

/-!
Shallow embedding of the FrameOS export/composition core
(`src/app/page.tsx`, types from `src/components/TabletFrame.tsx` /
`@/lib/types`, export-button gating from `src/components/ControlsPanel.tsx`).

JavaScript numbers used as indices are modelled as `Int` (they can go
negative, e.g. `imageUrls.length - 1` on an empty batch); list lengths are
`Nat` and are cast where the source mixes them.  The asynchronous export
handlers are modelled as pure functions of the session state plus an
explicit environment describing the outcome of each awaited external call
(`html-to-image`'s `toPng`, the DOM preview ref, the clipboard write); a
`try { … } finally { … }` with no `catch` is modelled by an `errored` flag
on the result that is `true` exactly when the thrown error passes the
`finally` block and escapes the handler (the handler's promise rejects).
-/

namespace FrameOS

/-- `FrameStyle` from `lib/types` (six frame variants). -/
inductive FrameStyle
  | macos | windows | minimal | browser | phone | tablet
deriving DecidableEq

/-- Frame theme, independent of the site theme. -/
inductive Theme
  | light | dark
deriving DecidableEq

/-- Built-in background gradients. -/
inductive Gradient
  | purpleBlue | orangePink | greenTeal | slate
deriving DecidableEq

/-- `PhonePreset` from `lib/types`: `'free'` plus the five exact store sizes. -/
inductive PhonePreset
  | free | appstore67 | appstore65 | appstore55 | playstore | playstoreXL
deriving DecidableEq

/-- `PhonePresetInfo` from `lib/types`. -/
structure PhonePresetInfo where
  label  : String
  store  : String
  device : String
  width  : Nat
  height : Nat
deriving DecidableEq

/-- `PHONE_PRESETS` from `lib/types`: a record over the non-`free` presets,
modelled as an `Option`-valued function that is `none` exactly on `free`. -/
def PHONE_PRESETS : PhonePreset → Option PhonePresetInfo
  | .free        => none
  | .appstore67  => some ⟨"6.7\" — Required", "App Store", "iPhone 15 Pro Max", 1290, 2796⟩
  | .appstore65  => some ⟨"6.5\" — Required", "App Store", "iPhone 14 Plus", 1242, 2688⟩
  | .appstore55  => some ⟨"5.5\" — Legacy", "App Store", "iPhone 8 Plus", 1242, 2208⟩
  | .playstore   => some ⟨"Standard 9:16", "Play Store", "Android standard", 1080, 1920⟩
  | .playstoreXL => some ⟨"Galaxy tall 9:20", "Play Store", "Galaxy S24 Ultra", 1080, 2400⟩

/-- `FrameConfig` from `lib/types`. -/
structure FrameConfig where
  frameStyle   : FrameStyle
  theme        : Theme
  gradient     : Gradient
  padding      : Nat
  borderRadius : Nat
  imageScale   : Nat
  bgColor      : String
  useCustomBg  : Bool
  phonePreset  : PhonePreset
deriving DecidableEq

/-- `DEFAULT_CONFIG` from `page.tsx`. -/
def DEFAULT_CONFIG : FrameConfig :=
  { frameStyle   := .macos
    theme        := .dark
    gradient     := .purpleBlue
    padding      := 32
    borderRadius := 12
    imageScale   := 100
    bgColor      := "#7c3aed"
    useCustomBg  := false
    phonePreset  := .free }

/-- `Partial<FrameConfig>`: the change-set passed to `updateConfig`. -/
structure PartialConfig where
  frameStyle   : Option FrameStyle
  theme        : Option Theme
  gradient     : Option Gradient
  padding      : Option Nat
  borderRadius : Option Nat
  imageScale   : Option Nat
  bgColor      : Option String
  useCustomBg  : Option Bool
  phonePreset  : Option PhonePreset
deriving DecidableEq

/-- The empty change-set. -/
def PartialConfig.none : PartialConfig :=
  ⟨Option.none, Option.none, Option.none, Option.none, Option.none,
   Option.none, Option.none, Option.none, Option.none⟩

/-- JS object spread `{ ...c, ...updates }`: fields present in the partial
override the corresponding fields of `c`. -/
def mergeConfig (c : FrameConfig) (u : PartialConfig) : FrameConfig :=
  { frameStyle   := u.frameStyle.getD c.frameStyle
    theme        := u.theme.getD c.theme
    gradient     := u.gradient.getD c.gradient
    padding      := u.padding.getD c.padding
    borderRadius := u.borderRadius.getD c.borderRadius
    imageScale   := u.imageScale.getD c.imageScale
    bgColor      := u.bgColor.getD c.bgColor
    useCustomBg  := u.useCustomBg.getD c.useCustomBg
    phonePreset  := u.phonePreset.getD c.phonePreset }

/-- `MAX_IMAGES` from `page.tsx`. -/
def MAX_IMAGES : Nat := 10

/-- `UNDO_LIMIT` from `page.tsx`. -/
def UNDO_LIMIT : Nat := 20

/-- `arr.slice(-n)`: the last `min n arr.length` elements, in order. -/
def sliceLast (n : Nat) (l : List α) : List α :=
  l.drop (l.length - n)

/-- The session state held by the `Page` component in `page.tsx`.
`preview` models whether `previewRef.current` is non-null (the
`FramePreview` is mounted). -/
structure PageState where
  imageUrls    : List String
  activeIndex  : Int
  config       : FrameConfig
  undoStack    : List FrameConfig
  exporting    : Bool
  exportingAll : Bool
  copying      : Bool
  preview      : Bool
deriving DecidableEq

/-- `isBusy` from `page.tsx` line 199. -/
def isBusy (s : PageState) : Bool :=
  s.exporting || s.exportingAll || s.copying

/-- `updateConfig` (`page.tsx` lines 67–70): pushes the pre-change config
onto the undo stack via `[...s.slice(-(UNDO_LIMIT - 1)), config]`, then
spreads the partial update onto the config. -/
def updateConfig (u : PartialConfig) (s : PageState) : PageState :=
  { s with
    undoStack := sliceLast (UNDO_LIMIT - 1) s.undoStack ++ [s.config]
    config    := mergeConfig s.config u }

/-- `handleUndo` (`page.tsx` lines 72–78): pops the tail snapshot into the
config; a no-op on an empty stack. -/
def handleUndo (s : PageState) : PageState :=
  match s.undoStack.getLast? with
  | Option.none   => s
  | Option.some c => { s with config := c, undoStack := s.undoStack.dropLast }

/-- A sequence of configuration edits applied through `updateConfig`. -/
def applyEdits (us : List PartialConfig) (s : PageState) : PageState :=
  us.foldl (fun t u => updateConfig u t) s

/-- The pre-change snapshot recorded by the `i`-th edit of the sequence:
the config just before that edit was applied. -/
def snapshots (us : List PartialConfig) (s : PageState) : List FrameConfig :=
  (List.range us.length).map (fun i => (applyEdits (us.take i) s).config)

/-- `handleUpload` (`page.tsx` lines 83–94); files are modelled by the data
URLs they decode to (`fileToDataUrl` is the identity of this model). -/
def handleUpload (files : List String) (s : PageState) : PageState :=
  let isFirstBatch := s.imageUrls.length = 0
  let slots : Int := if isFirstBatch then MAX_IMAGES else (MAX_IMAGES : Int) - s.imageUrls.length
  if slots ≤ 0 then s
  else
    let newDataUrls := files.take slots.toNat
    if isFirstBatch then
      { s with activeIndex := 0, imageUrls := newDataUrls }
    else
      { s with activeIndex := (s.imageUrls.length : Int),
               imageUrls := s.imageUrls ++ newDataUrls }

/-- `prev.filter((_, i) => i !== j)` starting at position `i0`: keeps every
element whose index differs from `j`. -/
def filterIdxNe (j : Int) : List α → Nat → List α
  | [], _ => []
  | a :: l, i0 => if (i0 : Int) = j then filterIdxNe j l (i0 + 1)
                  else a :: filterIdxNe j l (i0 + 1)

/-- `handleRemoveActive` (`page.tsx` lines 96–102). -/
def handleRemoveActive (s : PageState) : PageState :=
  let next := filterIdxNe s.activeIndex s.imageUrls 0
  { s with imageUrls := next,
           activeIndex := min s.activeIndex (max 0 ((next.length : Int) - 1)) }

/-- The options object passed to `toPng`: either `\x7b pixelRatio: r \x7d`
(constructor `pixel r`) or `\x7b canvasWidth, canvasHeight \x7d`
(constructor `canvas w h`). -/
inductive ExportOpts
  | pixel  (r : Nat)
  | canvas (width height : Nat)
deriving DecidableEq

/-- The `exportOpts` computed identically in `handleExport`
(`page.tsx` lines 113–117) and `handleExportAll` (lines 138–142). -/
def exportOptions (c : FrameConfig) : ExportOpts :=
  if c.phonePreset ≠ PhonePreset.free ∧ c.frameStyle = FrameStyle.phone then
    match PHONE_PRESETS c.phonePreset with
    | Option.some info => ExportOpts.canvas info.width info.height
    | Option.none      => ExportOpts.pixel 2
  else ExportOpts.pixel 2

/-- Outcome of one awaited `toPng` call: the produced data URL, or a throw. -/
inductive Capture
  | ok (url : String)
  | err
deriving DecidableEq

/-- One delivered browser download (`a.download` / `a.href` / `a.click()`). -/
structure Download where
  filename : String
  opts     : ExportOpts
  data     : String
deriving DecidableEq

/-- Download filename from the 0-based image position: the template literal
with stem "frameos-", the 1-based position, and extension ".png". -/
def mkName (i : Int) : String :=
  "frameos-" ++ toString (i + 1) ++ ".png"

/-- Result of one run of `handleExport` (also used for the keydown handler):
final state, delivered downloads, and whether an uncaught error escaped the
handler past its `finally` block (the handler's promise rejected). -/
structure SingleResult where
  state     : PageState
  downloads : List Download
  errored   : Bool
deriving DecidableEq

/-- `handleExport` (`page.tsx` lines 108–126).  The body is
`try \x7b … toPng … download … \x7d finally \x7b setExporting(false) \x7d` —
there is no `catch`, so a `toPng` failure still clears the flag but then
escapes the handler. -/
def handleExport (cap : Capture) (s : PageState) : SingleResult :=
  if s.preview = false ∨ s.imageUrls.length = 0 then ⟨s, [], false⟩
  else
    match cap with
    | .ok url =>
      ⟨{ s with exporting := false },
       [⟨mkName s.activeIndex, exportOptions s.config, url⟩], false⟩
    | .err => ⟨{ s with exporting := false }, [], true⟩

/-- Environment for one batch-export run: for each index, whether
`previewRef.current` is still non-null when checked after the settle delay,
and the outcome of that index's `toPng` call. -/
structure BatchEnv where
  previewAt : Nat → Bool
  captureAt : Nat → Capture

/-- Result of the `for` loop inside `handleExportAll`: the indices passed to
`setActiveIndex` in order, the delivered downloads, and whether a `toPng`
throw escaped the loop. -/
structure BatchOut where
  visited   : List Nat
  downloads : List Download
  errored   : Bool
deriving DecidableEq

/-- The `for (let i = 0; …)` loop body of `handleExportAll`
(`page.tsx` lines 143–153), over the list of remaining indices:
set the active index, wait, `break` if the preview ref is gone, capture
(a throw aborts the loop and escapes), deliver the download, continue. -/
def batchSteps (env : BatchEnv) (opts : ExportOpts) : List Nat → BatchOut
  | [] => ⟨[], [], false⟩
  | i :: rest =>
    if env.previewAt i = false then ⟨[i], [], false⟩
    else
      match env.captureAt i with
      | .err => ⟨[i], [], true⟩
      | .ok url =>
        let o := batchSteps env opts rest
        ⟨i :: o.visited, ⟨mkName i, opts, url⟩ :: o.downloads, o.errored⟩

/-- Result of one run of `handleExportAll`. -/
structure BatchResult where
  state     : PageState
  visited   : List Nat
  downloads : List Download
  errored   : Bool
deriving DecidableEq

/-- `handleExportAll` (`page.tsx` lines 132–158):
`saved = activeIndex`, then the capture loop inside
`try \x7b … \x7d finally \x7b setActiveIndex(saved); setExportingAll(false) \x7d`. -/
def handleExportAll (env : BatchEnv) (s : PageState) : BatchResult :=
  if s.preview = false ∨ s.imageUrls.length = 0 then ⟨s, [], [], false⟩
  else
    let o := batchSteps env (exportOptions s.config) (List.range s.imageUrls.length)
    ⟨{ s with activeIndex := s.activeIndex, exportingAll := false },
     o.visited, o.downloads, o.errored⟩

/-- Environment for one clipboard-copy run: the `toPng` outcome and whether
the `navigator.clipboard.write` call succeeds. -/
structure CopyEnv where
  cap       : Capture
  writeOk   : Bool

/-- Result of one run of `handleCopyToClipboard`: final state, the PNG data
written to the clipboard (empty if nothing was written), error escape flag. -/
structure CopyResult where
  state     : PageState
  clipboard : List String
  errored   : Bool
deriving DecidableEq

/-- `handleCopyToClipboard` (`page.tsx` lines 163–174): capture at
`pixelRatio: 2` always, write to the clipboard, with
`try/finally \x7b setCopying(false) \x7d` and no `catch`. -/
def handleCopyToClipboard (env : CopyEnv) (s : PageState) : CopyResult :=
  if s.preview = false ∨ s.imageUrls.length = 0 then ⟨s, [], false⟩
  else
    match env.cap with
    | .err => ⟨{ s with copying := false }, [], true⟩
    | .ok url =>
      if env.writeOk then ⟨{ s with copying := false }, [url], false⟩
      else ⟨{ s with copying := false }, [], true⟩

/-- The key events discriminated by the global keydown handler. -/
inductive Key
  | arrowLeft
  | arrowRight
  | keyE (metaKey ctrlKey : Bool)
  | keyZ (metaKey ctrlKey : Bool)
  | other
deriving DecidableEq

/-- The global keydown `handler` (`page.tsx` lines 184–195).  `inTextField`
models `tag === 'INPUT' || tag === 'TEXTAREA'`.  Note: the `E` branch calls
`handleExportRef.current()` with no busy-flag check of any kind. -/
def keydownHandler (inTextField : Bool) (cap : Capture) (k : Key) (s : PageState) :
    SingleResult :=
  if inTextField then ⟨s, [], false⟩
  else
    match k with
    | .arrowLeft =>
      ⟨{ s with activeIndex := max 0 (s.activeIndex - 1) }, [], false⟩
    | .arrowRight =>
      ⟨{ s with activeIndex := min ((s.imageUrls.length : Int) - 1) (s.activeIndex + 1) },
       [], false⟩
    | .keyE metaKey ctrlKey =>
      if metaKey = false ∧ ctrlKey = false then handleExport cap s else ⟨s, [], false⟩
    | .keyZ metaKey ctrlKey =>
      if metaKey = true ∨ ctrlKey = true then ⟨handleUndo s, [], false⟩ else ⟨s, [], false⟩
    | .other => ⟨s, [], false⟩

/-- The "Download Image" button in `ControlsPanel.tsx` (lines 334–346):
`disabled=\x7b!hasImage || isBusy\x7d`, `onClick=\x7bonExport\x7d`.  A
disabled button never fires its click handler. -/
def exportButtonClick (cap : Capture) (s : PageState) : SingleResult :=
  if s.imageUrls.length = 0 ∨ isBusy s = true then ⟨s, [], false⟩
  else handleExport cap s

/-- The "All (n)" button in `ControlsPanel.tsx` (lines 370–…):
rendered only when `imageCount > 1`, `disabled=\x7bisBusy\x7d`. -/
def exportAllButtonClick (env : BatchEnv) (s : PageState) : BatchResult :=
  if s.imageUrls.length ≤ 1 ∨ isBusy s = true then ⟨s, [], [], false⟩
  else handleExportAll env s

/-- The "Copy" button in `ControlsPanel.tsx` (lines 351–…):
rendered only when `hasImage`, `disabled=\x7bisBusy\x7d`. -/
def copyButtonClick (env : CopyEnv) (s : PageState) : CopyResult :=
  if s.imageUrls.length = 0 ∨ isBusy s = true then ⟨s, [], false⟩
  else handleCopyToClipboard env s

/-- A session with one image, preview mounted, and a clipboard copy in
flight (`copying = true`). -/
def busyState : PageState :=
  ⟨["img1"], 0, DEFAULT_CONFIG, [], false, false, true, true⟩

/-- An idle session with one image and the preview mounted. -/
def idleState : PageState :=
  ⟨["img1"], 0, DEFAULT_CONFIG, [], false, false, false, true⟩

/-- An idle session with three images, the second one active. -/
def threeState : PageState :=
  ⟨["a", "b", "c"], 1, DEFAULT_CONFIG, [], false, false, false, true⟩

/-- The freshly-loaded session: no images, no preview mounted. -/
def emptyState : PageState :=
  ⟨[], 0, DEFAULT_CONFIG, [], false, false, false, false⟩

/-- A sample configuration edit: set the frame style to `phone`. -/
def sampleEdit : PartialConfig :=
  { PartialConfig.none with frameStyle := Option.some FrameStyle.phone }

/-- A sample configuration edit: set the padding to 16. -/
def paddingEdit : PartialConfig :=
  { PartialConfig.none with padding := Option.some 16 }

/-- A batch environment in which the preview stays mounted and every
capture succeeds with the fixed payload "data". -/
def allOkEnv : BatchEnv :=
  ⟨fun _ => true, fun _ => Capture.ok "data"⟩

/-- A batch environment in which every capture throws. -/
def allErrEnv : BatchEnv :=
  ⟨fun _ => true, fun _ => Capture.err⟩

/-- A sequence of uploads applied through `handleUpload`. -/
def uploadAll (fss : List (List String)) (s : PageState) : PageState :=
  fss.foldl (fun t fs => handleUpload fs t) s

/-! ## Theorems -/

/-- C4: single export selects its raster request purely from the config:
with `frameStyle = phone` and a non-`free` preset it requests the preset's
exact canvas dimensions (for `appstore-67`, exactly 1290×2796); in every
other case it requests 2× pixel-ratio output. -/
theorem c4_export_options_spec (c : FrameConfig) :
    (c.frameStyle = FrameStyle.phone → c.phonePreset = PhonePreset.appstore67 →
      exportOptions c = ExportOpts.canvas 1290 2796)
  ∧ (c.phonePreset ≠ PhonePreset.free →
      ∃ info, PHONE_PRESETS c.phonePreset = Option.some info)
  ∧ (c.frameStyle = FrameStyle.phone → c.phonePreset ≠ PhonePreset.free →
      ∀ info, PHONE_PRESETS c.phonePreset = Option.some info →
        exportOptions c = ExportOpts.canvas info.width info.height)
  ∧ (c.phonePreset = PhonePreset.free ∨ c.frameStyle ≠ FrameStyle.phone →
      exportOptions c = ExportOpts.pixel 2) := by
  refine ⟨?_, ?_, ?_, ?_⟩
  · intro h1 h2
    simp [exportOptions, h1, h2, PHONE_PRESETS]
  · intro h
    cases hp : c.phonePreset <;> simp_all [PHONE_PRESETS]
  · intro h1 h2 info hinfo
    simp [exportOptions, h1, h2, hinfo]
  · intro h
    rcases h with h | h <;> simp [exportOptions, h]

/-- Witness for C4 at concrete configurations: the `appstore-67` phone
config requests the exact 1290×2796 canvas, while the default (`free`)
config requests 2× pixel-ratio output. -/
theorem c4_export_options_spec_witness :
    exportOptions { DEFAULT_CONFIG with
        frameStyle := FrameStyle.phone, phonePreset := PhonePreset.appstore67 }
      = ExportOpts.canvas 1290 2796
  ∧ exportOptions DEFAULT_CONFIG = ExportOpts.pixel 2 :=
  ⟨(c4_export_options_spec _).1 rfl rfl,
   (c4_export_options_spec _).2.2.2 (Or.inl rfl)⟩

/-- C9: the ArrowLeft/ArrowRight keydown branches move `activeIndex` by
-1/+1 clamped to `[0, length-1]` with no wraparound: ArrowLeft at index 0
stays at 0, ArrowRight at the last index stays there, and on a non-empty
batch an in-bounds index stays in-bounds under both keys. -/
theorem c9_arrow_navigation (s : PageState) (cap : Capture) :
    ((keydownHandler false cap Key.arrowLeft s).state.activeIndex
      = max 0 (s.activeIndex - 1))
  ∧ ((keydownHandler false cap Key.arrowRight s).state.activeIndex
      = min ((s.imageUrls.length : Int) - 1) (s.activeIndex + 1))
  ∧ (s.activeIndex = 0 →
      (keydownHandler false cap Key.arrowLeft s).state.activeIndex = 0)
  ∧ (s.imageUrls ≠ [] → s.activeIndex = (s.imageUrls.length : Int) - 1 →
      (keydownHandler false cap Key.arrowRight s).state.activeIndex = s.activeIndex)
  ∧ (s.imageUrls ≠ [] → 0 ≤ s.activeIndex →
      s.activeIndex < (s.imageUrls.length : Int) →
      (0 ≤ (keydownHandler false cap Key.arrowLeft s).state.activeIndex
        ∧ (keydownHandler false cap Key.arrowLeft s).state.activeIndex
            < (s.imageUrls.length : Int)
        ∧ 0 ≤ (keydownHandler false cap Key.arrowRight s).state.activeIndex
        ∧ (keydownHandler false cap Key.arrowRight s).state.activeIndex
            < (s.imageUrls.length : Int))) := by
  have hL : (keydownHandler false cap Key.arrowLeft s).state.activeIndex
      = max 0 (s.activeIndex - 1) := rfl
  have hR : (keydownHandler false cap Key.arrowRight s).state.activeIndex
      = min ((s.imageUrls.length : Int) - 1) (s.activeIndex + 1) := rfl
  refine ⟨hL, hR, ?_, ?_, ?_⟩
  · intro h0
    rw [hL, h0]
    omega
  · intro hne hlast
    have hpos : 0 < s.imageUrls.length := List.length_pos.mpr hne
    rw [hR, hlast]
    omega
  · intro hne h0 hlt
    have hpos : 0 < s.imageUrls.length := List.length_pos.mpr hne
    rw [hL, hR]
    omega

/-- Witness for C9 on a concrete three-image session. -/
theorem c9_arrow_navigation_witness :
    threeState.imageUrls ≠ [] ∧ 0 ≤ threeState.activeIndex
  ∧ threeState.activeIndex < (threeState.imageUrls.length : Int)
  ∧ (0 ≤ (keydownHandler false (Capture.ok "data") Key.arrowLeft threeState).state.activeIndex
      ∧ (keydownHandler false (Capture.ok "data") Key.arrowLeft threeState).state.activeIndex
          < (threeState.imageUrls.length : Int)
      ∧ 0 ≤ (keydownHandler false (Capture.ok "data") Key.arrowRight threeState).state.activeIndex
      ∧ (keydownHandler false (Capture.ok "data") Key.arrowRight threeState).state.activeIndex
          < (threeState.imageUrls.length : Int)) :=
  ⟨by decide, by decide, by decide,
   (c9_arrow_navigation threeState (Capture.ok "data")).2.2.2.2
     (by decide) (by decide) (by decide)⟩

/-- C10: with an empty batch or no mounted capture target, each of the
three export triggers is a complete no-op: no busy flag is set, no capture
or output happens, no error escapes, and the whole session state is
returned unchanged. -/
theorem c10_export_noop_when_empty (s : PageState) (cap : Capture)
    (env : BatchEnv) (cenv : CopyEnv)
    (h : s.preview = false ∨ s.imageUrls = []) :
    handleExport cap s = ⟨s, [], false⟩
  ∧ handleExportAll env s = ⟨s, [], [], false⟩
  ∧ handleCopyToClipboard cenv s = ⟨s, [], false⟩ := by
  have hg : s.preview = false ∨ s.imageUrls.length = 0 := by
    rcases h with h | h
    · exact Or.inl h
    · exact Or.inr (by rw [h]; rfl)
  refine ⟨?_, ?_, ?_⟩
  · unfold handleExport; rw [if_pos hg]
  · unfold handleExportAll; rw [if_pos hg]
  · unfold handleCopyToClipboard; rw [if_pos hg]

/-- Witness for C10 at the freshly-loaded empty session. -/
theorem c10_export_noop_when_empty_witness :
    (emptyState.preview = false ∨ emptyState.imageUrls = [])
  ∧ handleExport Capture.err emptyState = ⟨emptyState, [], false⟩
  ∧ handleExportAll allErrEnv emptyState = ⟨emptyState, [], [], false⟩
  ∧ handleCopyToClipboard ⟨Capture.err, false⟩ emptyState = ⟨emptyState, [], false⟩ :=
  ⟨Or.inl rfl,
   c10_export_noop_when_empty emptyState Capture.err allErrEnv ⟨Capture.err, false⟩
     (Or.inl rfl)⟩

/-- C1 (code evaluated at the failing input): with a clipboard copy in
flight (`copying = true`), every busy-gated button click is rejected, but
pressing `E` (no modifiers, focus outside a text field) is NOT rejected —
the keydown handler calls `handleExport` unguarded, which runs a full
second capture and delivers a download while the first operation is still
busy. -/
theorem c1_export_shortcut_ignores_busy :
    isBusy busyState = true
  ∧ exportButtonClick (Capture.ok "data") busyState = ⟨busyState, [], false⟩
  ∧ exportAllButtonClick allOkEnv busyState = ⟨busyState, [], [], false⟩
  ∧ copyButtonClick ⟨Capture.ok "data", true⟩ busyState = ⟨busyState, [], false⟩
  ∧ (keydownHandler false (Capture.ok "data") (Key.keyE false false) busyState).downloads
      = [⟨"frameos-1.png", ExportOpts.pixel 2, "data"⟩] :=
  ⟨rfl, rfl, rfl, rfl, rfl⟩

/-- C8 counterexample: export-path errors are NOT caught at the operation
boundary.  At a concrete one-image session, a throwing capture makes each
handler's `errored` flag `true`: the error passes the `finally` block and
escapes the operation (the handler's promise rejects), contradicting "the
error does not propagate out of the operation". -/
theorem c8_error_escapes_counterexample :
    (handleExport Capture.err idleState).errored = true
  ∧ (handleExportAll allErrEnv idleState).errored = true
  ∧ (handleCopyToClipboard ⟨Capture.err, true⟩ idleState).errored = true
  ∧ (handleCopyToClipboard ⟨Capture.ok "data", false⟩ idleState).errored = true :=
  ⟨rfl, rfl, rfl, rfl⟩

/-- C8 (amended): export-path errors are not caught — they escape the
operation (its promise rejects) — but each handler's `finally` block still
clears the operation's busy flag, restores `activeIndex` in the batch case,
and a failed single export or clipboard copy produces no output, so no
operation is ever left stuck in the busy state. -/
theorem c8_errors_clear_busy (s : PageState) (cap : Capture)
    (env : BatchEnv) (cenv : CopyEnv)
    (hp : s.preview = true) (hn : s.imageUrls.length ≠ 0) :
    ((handleExport cap s).state.exporting = false)
  ∧ (cap = Capture.err →
      (handleExport cap s).errored = true ∧ (handleExport cap s).downloads = [])
  ∧ ((handleExportAll env s).state.exportingAll = false)
  ∧ ((handleExportAll env s).state.activeIndex = s.activeIndex)
  ∧ ((handleCopyToClipboard cenv s).state.copying = false)
  ∧ (cenv.cap = Capture.err →
      (handleCopyToClipboard cenv s).errored = true
        ∧ (handleCopyToClipboard cenv s).clipboard = []) := by
  have hguard : ¬(s.preview = false ∨ s.imageUrls.length = 0) := by
    simp [hp, hn]
  refine ⟨?_, ?_, ?_, ?_, ?_, ?_⟩
  · unfold handleExport
    rw [if_neg hguard]
    cases cap <;> rfl
  · intro hc
    subst hc
    unfold handleExport
    rw [if_neg hguard]
    exact ⟨rfl, rfl⟩
  · unfold handleExportAll
    rw [if_neg hguard]
  · unfold handleExportAll
    rw [if_neg hguard]
  · unfold handleCopyToClipboard
    rw [if_neg hguard]
    cases hc : cenv.cap
    · cases hw : cenv.writeOk <;> simp [hc, hw]
    · simp [hc]
  · intro hc
    unfold handleCopyToClipboard
    rw [if_neg hguard, hc]
    exact ⟨rfl, rfl⟩

/-- Witness for C8 (amended) at a concrete failing session: the busy flags
end cleared, the active index is restored, and the failed single export
delivered nothing. -/
theorem c8_errors_clear_busy_witness :
    idleState.preview = true ∧ idleState.imageUrls.length ≠ 0
  ∧ ((handleExport Capture.err idleState).state.exporting = false)
  ∧ ((handleExport Capture.err idleState).errored = true
      ∧ (handleExport Capture.err idleState).downloads = [])
  ∧ ((handleExportAll allErrEnv idleState).state.exportingAll = false)
  ∧ ((handleExportAll allErrEnv idleState).state.activeIndex = idleState.activeIndex)
  ∧ ((handleCopyToClipboard ⟨Capture.err, true⟩ idleState).state.copying = false)
  ∧ ((handleCopyToClipboard ⟨Capture.err, true⟩ idleState).errored = true
      ∧ (handleCopyToClipboard ⟨Capture.err, true⟩ idleState).clipboard = []) := by
  have h := c8_errors_clear_busy idleState Capture.err allErrEnv
    ⟨Capture.err, true⟩ rfl (by decide)
  exact ⟨rfl, by decide, h.1, h.2.1 rfl, h.2.2.1, h.2.2.2.1, h.2.2.2.2.1,
         h.2.2.2.2.2 rfl⟩

/-- A list no longer than `n` is returned whole by `slice(-n)`. -/
theorem sliceLast_of_le {l : List α} {n : Nat} (h : l.length ≤ n) :
    sliceLast n l = l := by
  unfold sliceLast
  rw [Nat.sub_eq_zero_of_le h, List.drop_zero]

/-- Length of `slice(-n)`. -/
theorem length_sliceLast (n : Nat) (l : List α) :
    (sliceLast n l).length = min n l.length := by
  simp only [sliceLast, List.length_drop]
  omega

/-- Composing two `slice(-·)` calls keeps the smaller suffix. -/
theorem sliceLast_sliceLast (a b : Nat) (l : List α) :
    sliceLast a (sliceLast b l) = sliceLast (min a b) l := by
  unfold sliceLast
  rw [List.drop_drop, List.length_drop]
  congr 1
  omega

/-- When the suffix list fits inside the window, `slice(-n)` of an append
keeps the whole suffix. -/
theorem sliceLast_append_of_le {l₂ : List α} {n : Nat} (l₁ : List α)
    (h : l₂.length ≤ n) :
    sliceLast n (l₁ ++ l₂) = sliceLast (n - l₂.length) l₁ ++ l₂ := by
  unfold sliceLast
  rw [List.length_append, List.drop_append_eq_append_drop]
  have h2 : l₁.length + l₂.length - n - l₁.length = 0 := by omega
  have h1 : l₁.length + l₂.length - n = l₁.length - (n - l₂.length) := by omega
  rw [h2, h1, List.drop_zero]

/-- When the window fits inside the suffix list, `slice(-n)` of an append
ignores the prefix list. -/
theorem sliceLast_append_of_ge {l₂ : List α} {n : Nat} (l₁ : List α)
    (h : n ≤ l₂.length) :
    sliceLast n (l₁ ++ l₂) = sliceLast n l₂ := by
  unfold sliceLast
  rw [List.length_append, List.drop_append_eq_append_drop]
  have h1 : l₁.length ≤ l₁.length + l₂.length - n := by omega
  have h2 : l₁.length + l₂.length - n - l₁.length = l₂.length - n := by omega
  rw [List.drop_eq_nil_of_le h1, h2, List.nil_append]

/-- Trimming the stack to its last 19 entries before pushing does not
change the last-20 window after the push (and after any further pushes). -/
theorem sliceLast_push (S R : List α) (c : α) :
    sliceLast 20 ((sliceLast 19 S ++ [c]) ++ R) = sliceLast 20 ((S ++ [c]) ++ R) := by
  have hA : (sliceLast 19 S ++ [c]) ++ R = sliceLast 19 S ++ (c :: R) := by
    simp [List.append_assoc]
  have hB : (S ++ [c]) ++ R = S ++ (c :: R) := by
    simp [List.append_assoc]
  rw [hA, hB]
  rcases Nat.le_total (c :: R).length 20 with h | h
  · rw [sliceLast_append_of_le _ h, sliceLast_append_of_le _ h, sliceLast_sliceLast]
    have hm : min (20 - (c :: R).length) 19 = 20 - (c :: R).length := by
      simp only [List.length_cons]
      omega
    rw [hm]
  · rw [sliceLast_append_of_ge _ h, sliceLast_append_of_ge _ h]

/-- The undo-stack update performed by `updateConfig`, unconditionally. -/
theorem updateConfig_undoStack (u : PartialConfig) (s : PageState) :
    (updateConfig u s).undoStack = sliceLast 19 s.undoStack ++ [s.config] := rfl

/-- Below capacity, `updateConfig` pushes exactly the pre-change config. -/
theorem updateConfig_undoStack_of_le {s : PageState} (u : PartialConfig)
    (h : s.undoStack.length ≤ 19) :
    (updateConfig u s).undoStack = s.undoStack ++ [s.config] := by
  rw [updateConfig_undoStack, sliceLast_of_le h]

/-- Stack length after one `updateConfig`. -/
theorem updateConfig_stack_length (u : PartialConfig) (s : PageState) :
    (updateConfig u s).undoStack.length = min 19 s.undoStack.length + 1 := by
  rw [updateConfig_undoStack]
  simp [length_sliceLast]

/-- `applyEdits` on an empty edit list. -/
theorem applyEdits_nil (s : PageState) : applyEdits [] s = s := rfl

/-- `applyEdits` peels one edit. -/
theorem applyEdits_cons (u : PartialConfig) (us : List PartialConfig) (s : PageState) :
    applyEdits (u :: us) s = applyEdits us (updateConfig u s) := rfl

/-- Undoing right after an eviction-free edit restores the exact state. -/
theorem handleUndo_updateConfig {s : PageState} (u : PartialConfig)
    (h : s.undoStack.length ≤ 19) :
    handleUndo (updateConfig u s) = s := by
  unfold handleUndo
  rw [updateConfig_undoStack_of_le u h]
  rw [List.getLast?_concat, List.dropLast_concat]
  rfl

/-- As long as capacity is never exceeded, `N` undos invert `N` edits. -/
theorem undo_iterate_applyEdits :
    ∀ (us : List PartialConfig) (s : PageState),
      s.undoStack.length + us.length ≤ 20 →
      handleUndo^[us.length] (applyEdits us s) = s := by
  intro us
  induction us with
  | nil =>
    intro s _
    rw [applyEdits_nil]
    rfl
  | cons u us ih =>
    intro s h
    simp only [List.length_cons] at h ⊢
    rw [applyEdits_cons, Function.iterate_succ_apply',
        ih (updateConfig u s) (by rw [updateConfig_stack_length]; omega)]
    exact handleUndo_updateConfig u (by omega)

/-- C2: starting from an empty undo history, any sequence of `N ≤ 20`
configuration edits is undone by `N` undos, restoring the exact pre-edit-1
state; one further undo on the then-empty stack is a no-op; and each
eviction-free edit pushes exactly the pre-change configuration snapshot. -/
theorem c2_undo_restores (s : PageState) (us : List PartialConfig)
    (h0 : s.undoStack = []) (hN : us.length ≤ 20) :
    handleUndo^[us.length] (applyEdits us s) = s
  ∧ handleUndo^[us.length + 1] (applyEdits us s) = s
  ∧ (∀ (t : PageState) (u : PartialConfig), t.undoStack.length ≤ 19 →
      (updateConfig u t).undoStack = t.undoStack ++ [t.config]) := by
  have h1 : handleUndo^[us.length] (applyEdits us s) = s :=
    undo_iterate_applyEdits us s (by rw [h0]; simpa using hN)
  refine ⟨h1, ?_, fun t u ht => updateConfig_undoStack_of_le u ht⟩
  rw [Function.iterate_succ_apply', h1]
  unfold handleUndo
  rw [h0]
  rfl

/-- Witness for C2: two concrete edits on a fresh session, undone by two
undos, with a third undo a no-op. -/
theorem c2_undo_restores_witness :
    idleState.undoStack = []
  ∧ ([sampleEdit, paddingEdit] : List PartialConfig).length ≤ 20
  ∧ handleUndo^[2] (applyEdits [sampleEdit, paddingEdit] idleState) = idleState
  ∧ handleUndo^[3] (applyEdits [sampleEdit, paddingEdit] idleState) = idleState :=
  ⟨rfl, by decide,
   (c2_undo_restores idleState [sampleEdit, paddingEdit] rfl (by decide)).1,
   (c2_undo_restores idleState [sampleEdit, paddingEdit] rfl (by decide)).2.1⟩

/-- The snapshot list of an empty edit sequence. -/
theorem snapshots_nil (s : PageState) : snapshots [] s = [] := rfl

/-- Peeling one edit off the snapshot list: the first snapshot is the
current config, the rest are the snapshots of the remaining edits applied
to the updated state. -/
theorem snapshots_cons (u : PartialConfig) (us : List PartialConfig) (s : PageState) :
    snapshots (u :: us) s = s.config :: snapshots us (updateConfig u s) := by
  unfold snapshots
  rw [List.length_cons, List.range_succ_eq_map]
  simp only [List.map_cons, List.map_map]
  rfl

/-- The snapshot list has one entry per edit. -/
theorem length_snapshots (us : List PartialConfig) (s : PageState) :
    (snapshots us s).length = us.length := by
  simp [snapshots]

/-- Shape of the undo stack after any edit sequence: the last-20 window of
the initial stack followed by the pre-change snapshots, in order. -/
theorem applyEdits_undoStack :
    ∀ (us : List PartialConfig) (s : PageState), s.undoStack.length ≤ 20 →
      (applyEdits us s).undoStack = sliceLast 20 (s.undoStack ++ snapshots us s) := by
  intro us
  induction us with
  | nil =>
    intro s h
    rw [applyEdits_nil, snapshots_nil, List.append_nil, sliceLast_of_le h]
  | cons u us ih =>
    intro s h
    rw [applyEdits_cons, snapshots_cons,
        ih (updateConfig u s) (by rw [updateConfig_stack_length]; omega),
        updateConfig_undoStack]
    rw [sliceLast_push s.undoStack (snapshots us (updateConfig u s)) s.config]
    congr 1
    simp [List.append_assoc]

/-- C7: the undo history never exceeds 20 entries; starting from an empty
history, 25 edits leave exactly the 20 most recent pre-edit snapshots, in
insertion order, with the oldest 5 discarded. -/
theorem c7_undo_history_bounded (s : PageState) (us : List PartialConfig)
    (h0 : s.undoStack = []) (h25 : us.length = 25) :
    (applyEdits us s).undoStack.length = 20
  ∧ (applyEdits us s).undoStack = (snapshots us s).drop 5
  ∧ (∀ (t : PageState) (vs : List PartialConfig), t.undoStack.length ≤ 20 →
      (applyEdits vs t).undoStack.length ≤ 20) := by
  have hb : (applyEdits us s).undoStack = sliceLast 20 (snapshots us s) := by
    rw [applyEdits_undoStack us s (by rw [h0]; exact Nat.zero_le 20), h0,
        List.nil_append]
  refine ⟨?_, ?_, ?_⟩
  · rw [hb, length_sliceLast, length_snapshots, h25]
    omega
  · rw [hb]
    unfold sliceLast
    rw [length_snapshots, h25]
  · intro t vs ht
    rw [applyEdits_undoStack vs t ht, length_sliceLast]
    omega

/-- Witness for C7: 25 concrete edits on a fresh session leave an undo
stack of exactly 20 entries. -/
theorem c7_undo_history_bounded_witness :
    idleState.undoStack = []
  ∧ (List.replicate 25 paddingEdit).length = 25
  ∧ (applyEdits (List.replicate 25 paddingEdit) idleState).undoStack.length = 20 :=
  ⟨rfl, by decide,
   (c7_undo_history_bounded idleState (List.replicate 25 paddingEdit) rfl
     (by decide)).1⟩

/-- When the preview stays mounted and every capture succeeds, the batch
loop visits exactly the given indices in order and delivers one download
per index, named by its 1-based position, with no escaping error. -/
theorem batchSteps_allOk (env : BatchEnv) (opts : ExportOpts) :
    ∀ l : List Nat, (∀ i ∈ l, env.previewAt i = true) →
      (∀ i ∈ l, ∃ u, env.captureAt i = Capture.ok u) →
      (batchSteps env opts l).visited = l
    ∧ (batchSteps env opts l).downloads.map Download.filename
        = l.map (fun i => mkName i)
    ∧ (batchSteps env opts l).downloads.length = l.length
    ∧ (batchSteps env opts l).errored = false := by
  intro l
  induction l with
  | nil => intro _ _; exact ⟨rfl, rfl, rfl, rfl⟩
  | cons i rest ih =>
    intro hp hc
    have hpi : env.previewAt i = true := hp i (List.mem_cons_self i rest)
    obtain ⟨u, hu⟩ := hc i (List.mem_cons_self i rest)
    have ihh := ih (fun j hj => hp j (List.mem_cons_of_mem i hj))
                   (fun j hj => hc j (List.mem_cons_of_mem i hj))
    refine ⟨?_, ?_, ?_, ?_⟩ <;>
      simp [batchSteps, hpi, hu, ihh.1, ihh.2.1, ihh.2.2.1, ihh.2.2.2]

/-- C3: on a non-empty batch of `k` images with the capture target staying
available and every capture succeeding, batch export delivers exactly `k`
downloads, visits the indices `0,…,k-1` in strictly ascending order, names
each download by its 1-based position, lets no error escape, and — under
ANY environment (early abort or capture failure included) — restores
`activeIndex` to its pre-export value. -/
theorem c3_export_all_spec (s : PageState) (env envAny : BatchEnv)
    (hp : s.preview = true) (hk : s.imageUrls.length ≠ 0)
    (hprev : ∀ i, env.previewAt i = true)
    (hcap : ∀ i, ∃ u, env.captureAt i = Capture.ok u) :
    (handleExportAll env s).downloads.length = s.imageUrls.length
  ∧ (handleExportAll env s).visited = List.range s.imageUrls.length
  ∧ (handleExportAll env s).downloads.map Download.filename
      = (List.range s.imageUrls.length).map (fun i => mkName i)
  ∧ (handleExportAll env s).errored = false
  ∧ (handleExportAll env s).state.activeIndex = s.activeIndex
  ∧ (handleExportAll envAny s).state.activeIndex = s.activeIndex := by
  have hguard : ¬(s.preview = false ∨ s.imageUrls.length = 0) := by
    simp [hp, hk]
  have hall := batchSteps_allOk env (exportOptions s.config)
      (List.range s.imageUrls.length) (fun i _ => hprev i) (fun i _ => hcap i)
  unfold handleExportAll
  rw [if_neg hguard, if_neg hguard]
  have hlen := hall.2.2.1
  rw [List.length_range] at hlen
  exact ⟨hlen, hall.1, hall.2.1, hall.2.2.2, rfl, rfl⟩

/-- Witness for C3: a three-image batch with `activeIndex = 1` and an
all-success environment. -/
theorem c3_export_all_spec_witness :
    threeState.preview = true ∧ threeState.imageUrls.length ≠ 0
  ∧ (∀ i, allOkEnv.previewAt i = true)
  ∧ (∀ i, ∃ u, allOkEnv.captureAt i = Capture.ok u)
  ∧ (handleExportAll allOkEnv threeState).downloads.length = threeState.imageUrls.length
  ∧ (handleExportAll allOkEnv threeState).visited = List.range threeState.imageUrls.length
  ∧ (handleExportAll allOkEnv threeState).downloads.map Download.filename
      = (List.range threeState.imageUrls.length).map (fun i => mkName i)
  ∧ (handleExportAll allOkEnv threeState).errored = false
  ∧ (handleExportAll allOkEnv threeState).state.activeIndex = threeState.activeIndex
  ∧ (handleExportAll allErrEnv threeState).state.activeIndex = threeState.activeIndex := by
  have h := c3_export_all_spec threeState allOkEnv allErrEnv rfl (by decide)
      (fun _ => rfl) (fun _ => ⟨"data", rfl⟩)
  exact ⟨rfl, by decide, fun _ => rfl, fun _ => ⟨"data", rfl⟩,
         h.1, h.2.1, h.2.2.1, h.2.2.2.1, h.2.2.2.2.1, h.2.2.2.2.2⟩

/-- Filtering out an index that lies outside the remaining positions keeps
the list unchanged. -/
theorem filterIdxNe_out_of_range :
    ∀ (l : List α) (i0 : Nat) (j : Int),
      (j < (i0 : Int) ∨ (i0 : Int) + l.length ≤ j) →
      filterIdxNe j l i0 = l := by
  intro l
  induction l with
  | nil => intro i0 j _; rfl
  | cons a l ih =>
    intro i0 j h
    have hlen : ((a :: l).length : Int) = (l.length : Int) + 1 := by
      simp
    have hne : ¬((i0 : Int) = j) := by omega
    unfold filterIdxNe
    rw [if_neg hne, ih (i0 + 1) j (by push_cast; omega)]

/-- Filtering out an in-range index deletes exactly that entry, preserving
the order of the remaining entries. -/
theorem filterIdxNe_in_range :
    ∀ (l : List α) (i0 : Nat) (j : Int),
      (i0 : Int) ≤ j → j < (i0 : Int) + l.length →
      filterIdxNe j l i0
        = l.take (j - i0).toNat ++ l.drop ((j - i0).toNat + 1) := by
  intro l
  induction l with
  | nil =>
    intro i0 j h1 h2
    simp only [List.length_nil, Nat.cast_zero, Int.add_zero] at h2
    omega
  | cons a l ih =>
    intro i0 j h1 h2
    have hlen : ((a :: l).length : Int) = (l.length : Int) + 1 := by simp
    by_cases h : (i0 : Int) = j
    · have h0 : (j - i0).toNat = 0 := by omega
      unfold filterIdxNe
      rw [if_pos h, h0,
          filterIdxNe_out_of_range l (i0 + 1) j (Or.inl (by push_cast; omega))]
      simp
    · have hstep : (j - i0).toNat = (j - ((i0 : Int) + 1)).toNat + 1 := by omega
      unfold filterIdxNe
      rw [if_neg h, ih (i0 + 1) j (by omega) (by push_cast at h2 ⊢; omega), hstep]
      push_cast
      simp [List.take_succ_cons, List.drop_succ_cons]

/-- C5: `handleRemoveActive` on an in-bounds active index deletes exactly
that entry preserving the order of the rest; the new length is one less;
on a still non-empty batch the new active index is
`min(activeIndex, newLength-1)`; a batch of length 1 becomes empty; and
removing the last index of a longer batch leaves the new last index. -/
theorem c5_remove_active_spec (s : PageState)
    (h0 : 0 ≤ s.activeIndex)
    (hlt : s.activeIndex < (s.imageUrls.length : Int)) :
    (handleRemoveActive s).imageUrls
      = s.imageUrls.take s.activeIndex.toNat
        ++ s.imageUrls.drop (s.activeIndex.toNat + 1)
  ∧ (handleRemoveActive s).imageUrls.length = s.imageUrls.length - 1
  ∧ (1 < s.imageUrls.length →
      (handleRemoveActive s).activeIndex
        = min s.activeIndex ((s.imageUrls.length : Int) - 2))
  ∧ (s.imageUrls.length = 1 → (handleRemoveActive s).imageUrls = [])
  ∧ (1 < s.imageUrls.length → s.activeIndex = (s.imageUrls.length : Int) - 1 →
      (handleRemoveActive s).activeIndex = (s.imageUrls.length : Int) - 2) := by
  have hfilter := filterIdxNe_in_range s.imageUrls 0 s.activeIndex
      (by simpa using h0) (by simpa using hlt)
  simp only [Nat.cast_zero, Int.sub_zero] at hfilter
  have himg : (handleRemoveActive s).imageUrls
      = s.imageUrls.take s.activeIndex.toNat
        ++ s.imageUrls.drop (s.activeIndex.toNat + 1) := hfilter
  have hm : s.activeIndex.toNat < s.imageUrls.length := by omega
  have hlen2 : (handleRemoveActive s).imageUrls.length = s.imageUrls.length - 1 := by
    rw [himg, List.length_append, List.length_take, List.length_drop]
    omega
  have hidx : (handleRemoveActive s).activeIndex
      = min s.activeIndex (max 0 (((handleRemoveActive s).imageUrls.length : Int) - 1)) :=
    rfl
  refine ⟨himg, hlen2, ?_, ?_, ?_⟩
  · intro h1
    rw [hidx, hlen2]
    omega
  · intro h1
    have ht : s.activeIndex.toNat = 0 := by omega
    rw [himg, ht]
    simp only [List.take_zero, List.nil_append, Nat.zero_add]
    exact List.drop_eq_nil_of_le (by omega)
  · intro h1 hlast
    rw [hidx, hlen2]
    omega

/-- Witness for C5: removing the active (middle) image of a three-image
batch. -/
theorem c5_remove_active_spec_witness :
    0 ≤ threeState.activeIndex
  ∧ threeState.activeIndex < (threeState.imageUrls.length : Int)
  ∧ (handleRemoveActive threeState).imageUrls
      = threeState.imageUrls.take threeState.activeIndex.toNat
        ++ threeState.imageUrls.drop (threeState.activeIndex.toNat + 1)
  ∧ (handleRemoveActive threeState).imageUrls.length
      = threeState.imageUrls.length - 1
  ∧ (handleRemoveActive threeState).activeIndex
      = min threeState.activeIndex ((threeState.imageUrls.length : Int) - 2) := by
  have h := c5_remove_active_spec threeState (by decide) (by decide)
  exact ⟨by decide, by decide, h.1, h.2.1, h.2.2.1 (by decide)⟩

/-- The batch after one upload: the old entries followed by the accepted
prefix of the input, where the accepted count is the remaining capacity. -/
theorem handleUpload_imageUrls (files : List String) (s : PageState) :
    (handleUpload files s).imageUrls
      = s.imageUrls ++ files.take (MAX_IMAGES - s.imageUrls.length) := by
  rcases Nat.eq_zero_or_pos s.imageUrls.length with h | h
  · have hnil : s.imageUrls = [] := List.length_eq_zero.mp h
    simp [handleUpload, hnil, MAX_IMAGES]
  · have hne : ¬(s.imageUrls.length = 0) := by omega
    by_cases hcap : (MAX_IMAGES : Int) - (s.imageUrls.length : Int) ≤ 0
    · have hz : MAX_IMAGES - s.imageUrls.length = 0 := by
        simp only [MAX_IMAGES] at hcap ⊢
        omega
      simp [handleUpload, hne, hcap, hz]
    · have ht : ((MAX_IMAGES : Int) - (s.imageUrls.length : Int)).toNat
          = MAX_IMAGES - s.imageUrls.length := by
        simp only [MAX_IMAGES] at hcap ⊢
        omega
      simp [handleUpload, hne, hcap, ht]

/-- Length after one upload: saturating at capacity. -/
theorem handleUpload_length (files : List String) (s : PageState)
    (h : s.imageUrls.length ≤ MAX_IMAGES) :
    (handleUpload files s).imageUrls.length
      = min MAX_IMAGES (s.imageUrls.length + files.length) := by
  rw [handleUpload_imageUrls, List.length_append, List.length_take]
  simp only [MAX_IMAGES] at h ⊢
  omega

/-- Length after a sequence of uploads: saturating at capacity. -/
theorem uploadAll_length :
    ∀ (fss : List (List String)) (s : PageState), s.imageUrls.length ≤ MAX_IMAGES →
      (uploadAll fss s).imageUrls.length
        = min MAX_IMAGES (s.imageUrls.length + (fss.map List.length).sum) := by
  intro fss
  induction fss with
  | nil =>
    intro s h
    simp only [uploadAll, List.foldl_nil, List.map_nil, List.sum_nil, Nat.add_zero]
    simp only [MAX_IMAGES] at h ⊢
    omega
  | cons fs fss ih =>
    intro s h
    have hstep : uploadAll (fs :: fss) s = uploadAll fss (handleUpload fs s) := rfl
    have hle : (handleUpload fs s).imageUrls.length ≤ MAX_IMAGES := by
      rw [handleUpload_length fs s h]
      simp only [MAX_IMAGES]
      omega
    rw [hstep, ih _ hle, handleUpload_length fs s h]
    simp only [List.map_cons, List.sum_cons, MAX_IMAGES]
    omega

/-- C6: `handleUpload` appends exactly `min(10 - length, input length)`
entries in input order, preserving existing entries; lengths add up while
the total stays ≤ 10 and saturate at 10 beyond; an upload into an empty
batch sets `activeIndex` to 0, and an upload into a non-full, non-empty
batch sets `activeIndex` to the index of the first newly-added image. -/
theorem c6_upload_spec :
    (∀ (s : PageState) (files : List String),
      (handleUpload files s).imageUrls
        = s.imageUrls ++ files.take (MAX_IMAGES - s.imageUrls.length))
  ∧ (∀ (s : PageState) (files : List String), s.imageUrls.length ≤ MAX_IMAGES →
      (handleUpload files s).imageUrls.length
        = min MAX_IMAGES (s.imageUrls.length + files.length))
  ∧ (∀ (s : PageState) (files : List String), s.imageUrls = [] →
      (handleUpload files s).activeIndex = 0)
  ∧ (∀ (s : PageState) (files : List String),
      s.imageUrls ≠ [] → s.imageUrls.length < MAX_IMAGES → files ≠ [] →
      (handleUpload files s).activeIndex = (s.imageUrls.length : Int))
  ∧ (∀ (s : PageState) (fss : List (List String)), s.imageUrls.length ≤ MAX_IMAGES →
      (uploadAll fss s).imageUrls.length
        = min MAX_IMAGES (s.imageUrls.length + (fss.map List.length).sum)) := by
  refine ⟨fun s files => handleUpload_imageUrls files s,
         fun s files h => handleUpload_length files s h, ?_, ?_,
         fun s fss h => uploadAll_length fss s h⟩
  · intro s files h
    simp [handleUpload, h, MAX_IMAGES]
  · intro s files hne hcap _
    have h1 : ¬(s.imageUrls.length = 0) := by
      have := List.length_pos.mpr hne
      omega
    have h2 : ¬((MAX_IMAGES : Int) - (s.imageUrls.length : Int) ≤ 0) := by
      simp only [MAX_IMAGES] at hcap ⊢
      omega
    simp [handleUpload, h1, h2]

/-- Witness for C6 at concrete inputs: uploading two images into an empty
session, then seven, then five more saturates the batch at ten, and the
second upload lands with `activeIndex` at the first new image. -/
theorem c6_upload_spec_witness :
    (handleUpload ["a", "b"] emptyState).imageUrls = ["a", "b"]
  ∧ (handleUpload ["a", "b"] emptyState).activeIndex = 0
  ∧ (handleUpload ["d", "e"] threeState).activeIndex = 3
  ∧ (uploadAll [["a", "b"], ["c", "d", "e", "f", "g", "h", "i"], ["j", "k", "l", "m", "n"]]
      emptyState).imageUrls.length = 10 := by
  have h := c6_upload_spec
  refine ⟨?_, h.2.2.1 emptyState ["a", "b"] rfl, ?_, ?_⟩
  · rw [h.1 emptyState ["a", "b"]]
    rfl
  · have := h.2.2.2.1 threeState ["d", "e"] (by decide) (by decide) (by decide)
    rw [this]
    rfl
  · have := h.2.2.2.2 emptyState
      [["a", "b"], ["c", "d", "e", "f", "g", "h", "i"], ["j", "k", "l", "m", "n"]]
      (by decide)
    rw [this]
    rfl

end FrameOS
